import Mathlib

/-!
Verification of the CAF (Apple Core Audio Format) container decoder.

This file shallowly embeds the decoder (`src/lib.rs`, `src/chunks.rs`,
`src/enums.rs`) in Lean and proves/refutes the specification claims about it.

Conventions of the embedding:
- Byte sources are finite lists of bytes (`List Nat`, each entry a byte value)
  together with a cursor position (`ByteStream`).
- Machine integers are modelled as `Nat`/`Int`; the `as usize` / `as i64`
  casts of the source are modelled by the explicit functions `asUsize` /
  `asI64` (reduction modulo `2^64`).
- `f64`/`f32` fields are never arithmetically used by the code; they are
  retained as their raw big-endian byte values (a `Nat` bit pattern).
- Fallible code returns `Except Outcome α`.  `Outcome` distinguishes the
  typed error enum `CafError` of the source from a Rust `panic!` (and from
  fuel exhaustion of the loops that the source runs unboundedly).
- Loops whose iteration count is not structurally bounded by the input
  (the chunk-scan loops of `lib.rs`) take an explicit fuel argument.
-/

set_option maxRecDepth 100000

namespace Caf

/-- Chunk types of `enums.rs` (`ChunkType`): the named reserved tags and the
`Other` escape carrying the raw 32-bit value. -/
inductive ChunkType where
  | audioDescription
  | audioData
  | packetTable
  | channelLayout
  | magicCookie
  | strings
  | marker
  | region
  | instrument
  | midi
  | overview
  | peak
  | editComments
  | info
  | uniqueMaterialIdentifier
  | userDefined
  | free
  | other (v : Nat)
deriving DecidableEq, Repr

/-- `impl From<u32> for ChunkType` of `enums.rs`. -/
def ChunkType.fromU32 (v : Nat) : ChunkType :=
  if v = 0x64657363 then .audioDescription
  else if v = 0x64617461 then .audioData
  else if v = 0x70616b74 then .packetTable
  else if v = 0x6368616e then .channelLayout
  else if v = 0x6b756b69 then .magicCookie
  else if v = 0x73744267 then .strings
  else if v = 0x6d61726b then .marker
  else if v = 0x7265676e then .region
  else if v = 0x696e7374 then .instrument
  else if v = 0x6d696469 then .midi
  else if v = 0x6f767677 then .overview
  else if v = 0x7065616b then .peak
  else if v = 0x65646374 then .editComments
  else if v = 0x696e666f then .info
  else if v = 0x756d6964 then .uniqueMaterialIdentifier
  else if v = 0x75756964 then .userDefined
  else if v = 0x66726565 then .free
  else .other v

/-- Format types of `enums.rs` (`FormatType`). -/
inductive FormatType where
  | linearPcm
  | appleIma4
  | mpeg4Aac
  | mace3
  | mace6
  | ulaw
  | alaw
  | mpegLayer1
  | mpegLayer2
  | mpegLayer3
  | appleLossless
  | other (v : Nat)
deriving DecidableEq, Repr

/-- `impl From<u32> for FormatType` of `enums.rs`. -/
def FormatType.fromU32 (v : Nat) : FormatType :=
  if v = 0x6c70636d then .linearPcm
  else if v = 0x696d6134 then .appleIma4
  else if v = 0x61616320 then .mpeg4Aac
  else if v = 0x4d414333 then .mace3
  else if v = 0x4d414336 then .mace6
  else if v = 0x756c6177 then .ulaw
  else if v = 0x616c6177 then .alaw
  else if v = 0x2e6d7031 then .mpegLayer1
  else if v = 0x2e6d7032 then .mpegLayer2
  else if v = 0x2e6d7033 then .mpegLayer3
  else if v = 0x616c6163 then .appleLossless
  else .other v

/-- The typed error enum `CafError` of `lib.rs` (payloads of the `Io` and
`FromUtf8` variants carry no information the claims need). -/
inductive CafError where
  | io
  | fromUtf8
  | notCaf
  | unsupportedChunkType (t : ChunkType)
deriving DecidableEq, Repr

/-- How a call ends when it does not return a value: a typed `CafError`
(`Err(..)` in the source), a Rust `panic!`, or exhaustion of the explicit
fuel that stands in for the source's unbounded loops. -/
inductive Outcome where
  | err (e : CafError)
  | panicked
  | outOfFuel
deriving DecidableEq, Repr

/-- `AudioDescription` of `chunks.rs` (`sample_rate` retained as its raw
64-bit big-endian bit pattern; the code never computes with it). -/
structure AudioDescription where
  sample_rate : Nat
  format_id : FormatType
  format_flags : Nat
  bytes_per_packet : Nat
  frames_per_packet : Nat
  channels_per_frame : Nat
  bits_per_channel : Nat
deriving DecidableEq, Repr

/-- `PacketTable` of `chunks.rs`. -/
structure PacketTable where
  num_valid_frames : Int
  num_priming_frames : Int
  num_remainder_frames : Int
  lengths : List Nat
deriving DecidableEq, Repr

/-- `ChannelDescription` of `chunks.rs` (`f32` coordinates retained as raw
32-bit bit patterns). -/
structure ChannelDescription where
  channel_label : Nat
  channel_flags : Nat
  coordinates : Nat × Nat × Nat
deriving DecidableEq, Repr

/-- `ChannelLayout` of `chunks.rs`. -/
structure ChannelLayout where
  channel_layout_tag : Nat
  channel_bitmap : Nat
  channel_descriptions : List ChannelDescription
deriving DecidableEq, Repr

/-- `CafChunk` of `chunks.rs`.  The `Info` strings are retained as their
UTF-8 byte sequences (validated at decode time, mirroring
`String::from_utf8`). -/
inductive CafChunk where
  | desc (d : AudioDescription)
  | audioDataInMemory (edit_count : Nat) (data : List Nat)
  | packetTable (t : PacketTable)
  | chanLayout (l : ChannelLayout)
  | magicCookie (data : List Nat)
  | info (entries : List (List Nat × List Nat))
deriving DecidableEq, Repr

/-- Modelled from the spec: `CafChunk::get_type` is called by the packet
reader construction (`lib.rs` lines 287 and 314) but its definition is not
among the provided sources.  Per spec sections 2 and 3, each decoded chunk
carries the kind tag of the chunk it was decoded from. -/
def CafChunk.get_type : CafChunk → ChunkType
  | .desc _ => .audioDescription
  | .audioDataInMemory _ _ => .audioData
  | .packetTable _ => .packetTable
  | .chanLayout _ => .channelLayout
  | .magicCookie _ => .magicCookie
  | .info _ => .info

/-- `CafChunkHeader` of `chunks.rs`: resolved tag and signed 64-bit body
size (`-1` is the extends-to-EOF sentinel). -/
structure CafChunkHeader where
  ch_type : ChunkType
  ch_size : Int
deriving DecidableEq, Repr

/-- A seekable byte source: the full contents and a cursor. -/
structure ByteStream where
  data : List Nat
  pos : Nat
deriving DecidableEq, Repr

/-- Rust's `v as usize` on an `i64` value (two's-complement reinterpretation
into 64 unsigned bits). -/
def asUsize (v : Int) : Nat := (v % (2 : Int) ^ 64).toNat

/-- Rust's `n as i64` on a `usize`/`u64` value (two's-complement
reinterpretation of the low 64 bits). -/
def asI64 (n : Nat) : Int :=
  if n % 2 ^ 64 < 2 ^ 63 then ((n % 2 ^ 64 : Nat) : Int)
  else ((n % 2 ^ 64 : Nat) : Int) - 2 ^ 64

/-- `Read::read_exact`: yields exactly `n` bytes from the cursor, failing
with an I/O error when the source holds fewer. -/
def readExact (s : ByteStream) (n : Nat) : Except Outcome (List Nat × ByteStream) :=
  if s.pos + n ≤ s.data.length then
    .ok ((s.data.drop s.pos).take n, { s with pos := s.pos + n })
  else .error (.err .io)

/-- `Seek::seek(SeekFrom::Current(off))`: relative seek; seeking before the
start of the source is an I/O error. -/
def seekCur (s : ByteStream) (off : Int) : Except Outcome ByteStream :=
  if (s.pos : Int) + off < 0 then .error (.err .io)
  else .ok { s with pos := ((s.pos : Int) + off).toNat }

/-- Big-endian interpretation of a byte list as an unsigned integer. -/
def beNat (l : List Nat) : Nat := l.foldl (fun a b => a * 256 + b % 256) 0

/-- `read_u32::<BigEndian>` on the stream. -/
def readU32 (s : ByteStream) : Except Outcome (Nat × ByteStream) :=
  match readExact s 4 with
  | .error e => .error e
  | .ok (bs, s') => .ok (beNat bs, s')

/-- `read_i64::<BigEndian>` on the stream. -/
def readI64 (s : ByteStream) : Except Outcome (Int × ByteStream) :=
  match readExact s 8 with
  | .error e => .error e
  | .ok (bs, s') =>
    let n := beNat bs
    .ok (if n < 2 ^ 63 then (n : Int) else (n : Int) - 2 ^ 64, s')

/-- `read_u32` on an in-memory cursor (`std::io::Cursor` over the chunk
body): four bytes or failure. -/
def takeU32 : List Nat → Option (Nat × List Nat)
  | a :: b :: c :: d :: rest => some (beNat [a, b, c, d], rest)
  | _ => none

/-- `read_f64` on an in-memory cursor, the value kept as its raw 64-bit
big-endian bit pattern. -/
def takeRaw64 (l : List Nat) : Option (Nat × List Nat) :=
  if 8 ≤ l.length then some (beNat (l.take 8), l.drop 8) else none

/-- `read_f32` on an in-memory cursor, raw 32-bit bit pattern. -/
def takeRaw32 (l : List Nat) : Option (Nat × List Nat) :=
  if 4 ≤ l.length then some (beNat (l.take 4), l.drop 4) else none

/-- `read_i64` on an in-memory cursor. -/
def takeI64 (l : List Nat) : Option (Int × List Nat) :=
  match takeRaw64 l with
  | none => none
  | some (n, rest) => some (if n < 2 ^ 63 then (n : Int) else (n : Int) - 2 ^ 64, rest)

/-- `read_i32` on an in-memory cursor. -/
def takeI32 (l : List Nat) : Option (Int × List Nat) :=
  match takeU32 l with
  | none => none
  | some (n, rest) => some (if n < 2 ^ 31 then (n : Int) else (n : Int) - 2 ^ 32, rest)

/-- `BufRead::read_until(0, ..)` on an in-memory cursor: reads up to and
including the first zero byte; at end of data it returns whatever remains
(possibly nothing) without failing. -/
def read_until0 : List Nat → List Nat × List Nat
  | [] => ([], [])
  | b :: rest =>
    if b = 0 then ([b], rest)
    else
      let r := read_until0 rest
      (b :: r.1, r.2)

/-- UTF-8 validity of a byte sequence, as checked by Rust's
`String::from_utf8` (RFC 3629: no overlong forms, no surrogates, max
U+10FFFF). -/
def utf8Valid : List Nat → Bool
  | [] => true
  | b :: rest =>
    if b ≤ 0x7F then utf8Valid rest
    else if b < 0xC2 then false
    else if b ≤ 0xDF then
      match rest with
      | c1 :: r => if 0x80 ≤ c1 ∧ c1 ≤ 0xBF then utf8Valid r else false
      | [] => false
    else if b ≤ 0xEF then
      match rest with
      | c1 :: c2 :: r =>
        if (if b = 0xE0 then 0xA0 ≤ c1 ∧ c1 ≤ 0xBF
            else if b = 0xED then 0x80 ≤ c1 ∧ c1 ≤ 0x9F
            else 0x80 ≤ c1 ∧ c1 ≤ 0xBF) ∧ 0x80 ≤ c2 ∧ c2 ≤ 0xBF then utf8Valid r
        else false
      | _ => false
    else if b ≤ 0xF4 then
      match rest with
      | c1 :: c2 :: c3 :: r =>
        if (if b = 0xF0 then 0x90 ≤ c1 ∧ c1 ≤ 0xBF
            else if b = 0xF4 then 0x80 ≤ c1 ∧ c1 ≤ 0x8F
            else 0x80 ≤ c1 ∧ c1 ≤ 0xBF) ∧ (0x80 ≤ c2 ∧ c2 ≤ 0xBF) ∧ 0x80 ≤ c3 ∧ c3 ≤ 0xBF then
          utf8Valid r
        else false
      | _ => false
    else false

/-- Accumulating loop of `read_vlq` (`chunks.rs` lines 204-217): one byte at
a time, `res = (res << 7) | (byte & 0x7F)` on a wrapping `u64`, stop when
the continuation bit clears.  `none` models the I/O error raised when the
source is exhausted first; the source has no iteration cap. -/
def read_vlq_go (res : Nat) : List Nat → Option (Nat × List Nat)
  | [] => none
  | b :: rest =>
    let res' := res * 128 % 2 ^ 64 ||| b % 128
    if b % 256 < 128 then some (res', rest) else read_vlq_go res' rest

/-- `read_vlq` of `chunks.rs`. -/
def read_vlq (l : List Nat) : Option (Nat × List Nat) := read_vlq_go 0 l

/-- The packet-length loop of the `PacketTable` arm of `decode_chunk`:
`num_packets` VLQ reads (`try!`, so exhaustion is a typed I/O error). -/
def decodePacketTableLengths : Nat → List Nat → Except Outcome (List Nat × List Nat)
  | 0, rest => .ok ([], rest)
  | Nat.succ k, rest =>
    match read_vlq rest with
    | none => .error (.err .io)
    | some (v, rest') =>
      match decodePacketTableLengths k rest' with
      | .error e => .error e
      | .ok (vs, rest'') => .ok (v :: vs, rest'')

/-- The description loop of the `ChannelLayout` arm of `decode_chunk`. -/
def decodeChanDescs : Nat → List Nat → Except Outcome (List ChannelDescription × List Nat)
  | 0, rest => .ok ([], rest)
  | Nat.succ k, rest =>
    match takeU32 rest with
    | none => .error (.err .io)
    | some (label, r1) =>
    match takeU32 r1 with
    | none => .error (.err .io)
    | some (flags, r2) =>
    match takeRaw32 r2 with
    | none => .error (.err .io)
    | some (x, r3) =>
    match takeRaw32 r3 with
    | none => .error (.err .io)
    | some (y, r4) =>
    match takeRaw32 r4 with
    | none => .error (.err .io)
    | some (z, r5) =>
    match decodeChanDescs k r5 with
    | .error e => .error e
    | .ok (ds, rest') =>
      .ok ({ channel_label := label, channel_flags := flags, coordinates := (x, y, z) } :: ds, rest')

/-- The pair loop of the `Info` arm of `decode_chunk`: each entry is two
`read_until(0, ..)` reads whose trailing byte is popped, then both byte
strings go through `String::from_utf8` (`try!`, so invalid UTF-8 is the
typed `FromUtf8` error).  A truncated pair is not detected: `read_until`
reports end-of-data as an ordinary empty/partial read. -/
def decodeInfoEntries : Nat → List Nat → Except Outcome (List (List Nat × List Nat) × List Nat)
  | 0, rest => .ok ([], rest)
  | Nat.succ k, rest =>
    let kr := read_until0 rest
    let vr := read_until0 kr.2
    let key := kr.1.dropLast
    let val := vr.1.dropLast
    if utf8Valid key then
      if utf8Valid val then
        match decodeInfoEntries k vr.2 with
        | .error e => .error e
        | .ok (es, rest') => .ok ((key, val) :: es, rest')
      else .error (.err .fromUtf8)
    else .error (.err .fromUtf8)

/-- `decode_chunk` of `chunks.rs`.  `.unwrap()` calls of the source are the
`panicked` outcome; `rdt!`/`try!` reads are the typed I/O error. -/
def decode_chunk (chunk_type : ChunkType) (chunk_content : List Nat) : Except Outcome CafChunk :=
  match chunk_type with
  | .audioDescription =>
    match takeRaw64 chunk_content with
    | none => .error .panicked
    | some (sample_rate, r1) =>
    match takeU32 r1 with
    | none => .error .panicked
    | some (fid, r2) =>
    match takeU32 r2 with
    | none => .error .panicked
    | some (flags, r3) =>
    match takeU32 r3 with
    | none => .error (.err .io)
    | some (bpp, r4) =>
    match takeU32 r4 with
    | none => .error (.err .io)
    | some (fpp, r5) =>
    match takeU32 r5 with
    | none => .error (.err .io)
    | some (cpf, r6) =>
    match takeU32 r6 with
    | none => .error (.err .io)
    | some (bpc, _) =>
      .ok (.desc
        { sample_rate := sample_rate, format_id := FormatType.fromU32 fid,
          format_flags := flags, bytes_per_packet := bpp, frames_per_packet := fpp,
          channels_per_frame := cpf, bits_per_channel := bpc })
  | .audioData =>
    match takeU32 chunk_content with
    | none => .error .panicked
    | some (edit_count, _) => .ok (.audioDataInMemory edit_count (chunk_content.drop 4))
  | .packetTable =>
    match takeI64 chunk_content with
    | none => .error (.err .io)
    | some (num_packets, r1) =>
    match takeI64 r1 with
    | none => .error (.err .io)
    | some (valid, r2) =>
    match takeI32 r2 with
    | none => .error (.err .io)
    | some (priming, r3) =>
    match takeI32 r3 with
    | none => .error (.err .io)
    | some (remainder, r4) =>
    match decodePacketTableLengths num_packets.toNat r4 with
    | .error e => .error e
    | .ok (lengths, _) =>
      .ok (.packetTable
        { num_valid_frames := valid, num_priming_frames := priming,
          num_remainder_frames := remainder, lengths := lengths })
  | .channelLayout =>
    match takeU32 chunk_content with
    | none => .error .panicked
    | some (tag, r1) =>
    match takeU32 r1 with
    | none => .error .panicked
    | some (bitmap, r2) =>
    match takeU32 r2 with
    | none => .error (.err .io)
    | some (count, r3) =>
    match decodeChanDescs count r3 with
    | .error e => .error e
    | .ok (descs, _) =>
      .ok (.chanLayout
        { channel_layout_tag := tag, channel_bitmap := bitmap, channel_descriptions := descs })
  | .magicCookie => .ok (.magicCookie chunk_content)
  | .info =>
    match takeU32 chunk_content with
    | none => .error (.err .io)
    | some (num_entries, r1) =>
    match decodeInfoEntries num_entries r1 with
    | .error e => .error e
    | .ok (entries, _) => .ok (.info entries)
  | t => .error (.err (.unsupportedChunkType t))

/-- `CafChunkReader::read_chunk_header` (`lib.rs` lines 109-118): 4-byte
big-endian tag resolved through `ChunkType::from`, then the signed 8-byte
size.  Any signed size is accepted (the source has a TODO about rejecting
sizes below `-1`). -/
def read_chunk_header (s : ByteStream) : Except Outcome (CafChunkHeader × ByteStream) :=
  match readU32 s with
  | .error e => .error e
  | .ok (t, s1) =>
    match readI64 s1 with
    | .error e => .error e
    | .ok (sz, s2) => .ok ({ ch_type := ChunkType.fromU32 t, ch_size := sz }, s2)

/-- `CafChunkReader::read_chunk_body` (`lib.rs` lines 97-107): the `-1`
sentinel hits the source's `panic!("unspecified chunk size is not yet
implemented")`; otherwise exactly `ch_size as usize` bytes are read and
decoded. -/
def read_chunk_body (s : ByteStream) (hdr : CafChunkHeader) : Except Outcome (CafChunk × ByteStream) :=
  if hdr.ch_size = -1 then .error .panicked
  else
    match readExact s (asUsize hdr.ch_size) with
    | .error e => .error e
    | .ok (content, s1) =>
      match decode_chunk hdr.ch_type content with
      | .error e => .error e
      | .ok c => .ok (c, s1)

/-- `CafChunkReader::to_next_chunk` (`lib.rs` lines 138-145): panics on the
`-1` sentinel, otherwise seeks forward by the body size. -/
def to_next_chunk (s : ByteStream) (hdr : CafChunkHeader) : Except Outcome ByteStream :=
  if hdr.ch_size = -1 then .error .panicked
  else seekCur s hdr.ch_size

/-- `CafChunkReader::to_previous_chunk` (`lib.rs` lines 156-163). -/
def to_previous_chunk (s : ByteStream) (hdr : CafChunkHeader) : Except Outcome ByteStream :=
  if hdr.ch_size = -1 then .error .panicked
  else seekCur s (-hdr.ch_size)

/-- Removal of the first occurrence of `t` from the `required` vector, as
done by the index search plus `required.remove(i)` in
`read_chunks_to_mem`. -/
def removeFirstOcc (l : List ChunkType) (t : ChunkType) : List ChunkType :=
  match l.findIdx? (fun x => decide (x = t)) with
  | none => l
  | some i => l.eraseIdx i

/-- One loop body of `read_chunks_to_mem` after the header read: decode the
body into memory when the tag is whitelisted, otherwise skip over it. -/
def scanStep (content_read_found : Bool) (s : ByteStream) (hdr : CafChunkHeader) :
    Except Outcome (Option CafChunk × ByteStream) :=
  if content_read_found then
    match read_chunk_body s hdr with
    | .error e => .error e
    | .ok (c, s2) => .ok (some c, s2)
  else
    match to_next_chunk s hdr with
    | .error e => .error e
    | .ok s2 => .ok (none, s2)

/-- `CafChunkReader::read_chunks_to_mem` (`lib.rs` lines 179-224): reads
headers in a loop; a tag found in `required` removes one occurrence; a tag
found in `content_read` has its body decoded into the result, others are
skipped; every header is logged; the loop exits (after the body of the
iteration) once `required` is empty.  The `ch_size == -1` test of the
source has an empty body (a TODO), so it is not modelled.  `fuel` bounds
the otherwise unbounded loop. -/
def read_chunks_to_mem (fuel : Nat) (required : List ChunkType) (content_read : List ChunkType)
    (s : ByteStream) : Except Outcome (List CafChunk × List CafChunkHeader × ByteStream) :=
  match fuel with
  | 0 => .error .outOfFuel
  | Nat.succ fuel' =>
    match read_chunk_header s with
    | .error e => .error e
    | .ok (hdr, s1) =>
      let content_read_found := content_read.any (fun x => decide (x = hdr.ch_type))
      let required' := removeFirstOcc required hdr.ch_type
      match scanStep content_read_found s1 hdr with
      | .error e => .error e
      | .ok (copt, s2) =>
        if required' = [] then .ok (copt.toList, [hdr], s2)
        else
          match read_chunks_to_mem fuel' required' content_read s2 with
          | .error e => .error e
          | .ok (res, hdrs, s3) => .ok (copt.toList ++ res, hdr :: hdrs, s3)

/-- `CafPacketReader` of `lib.rs` (the wrapped chunk reader collapses to its
byte stream `rdr`). -/
structure CafPacketReader where
  rdr : ByteStream
  audio_desc : AudioDescription
  packet_table : Option PacketTable
  chunks : List CafChunk
  edit_count : Nat
  audio_chunk_len : Int
  audio_chunk_offs : Int
  packet_idx : Nat
deriving DecidableEq, Repr

/-- The `for (idx, ch) in chunks_in_mem.iter().enumerate()` searches of
`from_chunk_reader`: each match overwrites the index, so the result is the
index of the last matching element. -/
def findLastIdxOf (p : CafChunk → Bool) : List CafChunk → Option Nat
  | [] => none
  | c :: rest =>
    match findLastIdxOf p rest with
    | some i => some (i + 1)
    | none => if p c then some 0 else none

/-- `remove_and_unwrap!(idx, Desc)`: `Vec::remove` panics on an out-of-range
index and the macro panics on a non-`Desc` element. -/
def removeDescAt (l : List CafChunk) (i : Nat) : Except Outcome (AudioDescription × List CafChunk) :=
  match l.get? i with
  | some (.desc d) => .ok (d, l.eraseIdx i)
  | some _ => .error .panicked
  | none => .error .panicked

/-- `remove_and_unwrap!(idx, PacketTable)`. -/
def removePacketTableAt (l : List CafChunk) (i : Nat) : Except Outcome (PacketTable × List CafChunk) :=
  match l.get? i with
  | some (.packetTable t) => .ok (t, l.eraseIdx i)
  | some _ => .error .panicked
  | none => .error .panicked

/-- Step 2's packet-table resolution of `from_chunk_reader` (`lib.rs` lines
304-323): use the captured table if one was seen; otherwise, when the
audio description makes a table mandatory, run a second scan with
`required = [PacketTable]` and extract the table from the extended chunk
list; otherwise record no table. -/
def resolve_packet_table (fuel : Nat) (audio_desc : AudioDescription)
    (packet_table_idx : Option Nat) (chunks1 : List CafChunk)
    (read_headers : List CafChunkHeader) (content_read : List ChunkType) (s1 : ByteStream) :
    Except Outcome (Option PacketTable × List CafChunk × List CafChunkHeader × ByteStream) :=
  match packet_table_idx with
  | some i =>
    match removePacketTableAt chunks1 i with
    | .error e => .error e
    | .ok (pt, chunks2) => .ok (some pt, chunks2, read_headers, s1)
  | none =>
    if audio_desc.bytes_per_packet = 0 ∨ audio_desc.frames_per_packet = 0 then
      match read_chunks_to_mem fuel [ChunkType.packetTable] content_read s1 with
      | .error e => .error e
      | .ok (chunksB, hdrsB, s2) =>
        match findLastIdxOf (fun c => decide (c.get_type = ChunkType.packetTable))
            (chunks1 ++ chunksB) with
        | none => .error .panicked
        | some j =>
          match removePacketTableAt (chunks1 ++ chunksB) j with
          | .error e => .error e
          | .ok (pt, chunks3) => .ok (some pt, chunks3, read_headers ++ hdrsB, s2)
    else .ok (none, chunks1, read_headers, s1)

/-- Step 3's bookkeeping loop over the already-read headers (`lib.rs` lines
328-339): returns `(audio_chunk_len, seek_backwards)`. -/
def audioScanFold (read_headers : List CafChunkHeader) : Int × Int :=
  read_headers.foldl
    (fun acc hdr =>
      let sb := if acc.2 > 0 ∨ hdr.ch_type = ChunkType.audioData
        then acc.2 + 12 + hdr.ch_size else acc.2
      let len := if hdr.ch_type = ChunkType.audioData then hdr.ch_size else acc.1
      (len, sb))
    (0, 0)

/-- The forward search loop of step 3 (`lib.rs` lines 348-356): read headers
ahead, skipping every chunk until the audio-data chunk's header is found;
returns its size with the cursor at its body start. -/
def seek_to_audio_chunk (fuel : Nat) (s : ByteStream) : Except Outcome (Int × ByteStream) :=
  match fuel with
  | 0 => .error .outOfFuel
  | Nat.succ fuel' =>
    match read_chunk_header s with
    | .error e => .error e
    | .ok (hdr, s1) =>
      if hdr.ch_type = ChunkType.audioData then .ok (hdr.ch_size, s1)
      else
        match to_next_chunk s1 hdr with
        | .error e => .error e
        | .ok s2 => seek_to_audio_chunk fuel' s2

/-- Step 3 of `from_chunk_reader` (`lib.rs` lines 325-357): if the headers
log shows the audio-data chunk was already passed, seek backwards by the
accumulated span minus one header length; otherwise scan forward for it. -/
def locate_audio_data (fuel : Nat) (read_headers : List CafChunkHeader) (s : ByteStream) :
    Except Outcome (Int × ByteStream) :=
  let fold := audioScanFold read_headers
  if fold.2 ≠ 0 then
    match seekCur s (-(fold.2 - 12)) with
    | .error e => .error e
    | .ok s' => .ok (fold.1, s')
  else seek_to_audio_chunk fuel s

/-- `CafPacketReader::from_chunk_reader` (`lib.rs` lines 271-374).  `fuel`
bounds the two scan loops. -/
def from_chunk_reader (fuel : Nat) (s : ByteStream) (filter_by : List ChunkType) :
    Except Outcome CafPacketReader :=
  let filter_req := filter_by ++ [ChunkType.audioDescription]
  let content_read := filter_req ++ [ChunkType.packetTable]
  match read_chunks_to_mem fuel filter_req content_read s with
  | .error e => .error e
  | .ok (chunks_in_mem, read_headers, s1) =>
    let audio_desc_idx :=
      findLastIdxOf (fun c => decide (c.get_type = ChunkType.audioDescription)) chunks_in_mem
    let packet_table_idx :=
      findLastIdxOf (fun c => decide (c.get_type = ChunkType.packetTable)) chunks_in_mem
    match audio_desc_idx with
    | none => .error .panicked
    | some ai =>
      match removeDescAt chunks_in_mem ai with
      | .error e => .error e
      | .ok (audio_desc, chunks1) =>
        match resolve_packet_table fuel audio_desc packet_table_idx chunks1
            read_headers content_read s1 with
        | .error e => .error e
        | .ok (packet_table, chunksF, read_headersF, sF) =>
          match locate_audio_data fuel read_headersF sF with
          | .error e => .error e
          | .ok (audio_chunk_len, s3) =>
            match readU32 s3 with
            | .error e => .error e
            | .ok (edit_count, s4) =>
              .ok { rdr := s4, audio_desc := audio_desc, packet_table := packet_table,
                    chunks := chunksF, edit_count := edit_count,
                    audio_chunk_len := audio_chunk_len, audio_chunk_offs := 4,
                    packet_idx := 0 }

/-- `CafPacketReader::packet_size_is_constant`. -/
def packet_size_is_constant (st : CafPacketReader) : Bool :=
  decide (st.audio_desc.bytes_per_packet ≠ 0)

/-- `CafPacketReader::next_packet_size` (`lib.rs` lines 392-412): the
constant size if `bytes_per_packet` is nonzero, else the packet-table entry
at the cursor (`None` when out of range, a panic when the table is absent);
a computed size is discarded in favour of `None` when the bounded audio
chunk would be overrun. -/
def next_packet_size (st : CafPacketReader) : Except Outcome (Option Nat) :=
  match (match st.audio_desc.bytes_per_packet with
         | 0 =>
           match st.packet_table with
           | none => Except.error Outcome.panicked
           | some t =>
             match t.lengths.get? st.packet_idx with
             | some v => Except.ok (some v)
             | none => Except.ok none
         | Nat.succ k => Except.ok (some (Nat.succ k))) with
  | .error e => .error e
  | .ok none => .ok none
  | .ok (some res) =>
    if st.audio_chunk_len ≠ -1 ∧ st.audio_chunk_offs + asI64 res > st.audio_chunk_len then
      .ok none
    else .ok (some res)

/-- `CafPacketReader::next_packet` (`lib.rs` lines 417-428).  An early
`try!` return leaves the reader's fields unchanged, so the error outcome
carries the reader state as of the failure. -/
def next_packet (st : CafPacketReader) :
    Except (Outcome × CafPacketReader) (Option (List Nat) × CafPacketReader) :=
  match next_packet_size st with
  | .error e => .error (e, st)
  | .ok none => .ok (none, st)
  | .ok (some n) =>
    match readExact st.rdr n with
    | .error e => .error (e, st)
    | .ok (arr, s') =>
      .ok (some arr,
        { st with rdr := s', packet_idx := st.packet_idx + 1,
                  audio_chunk_offs := st.audio_chunk_offs + asI64 n })

/-- `CafPacketReader::read_packet_into` (`lib.rs` lines 435-440): reads
exactly the caller's buffer length (`n`), blindly. -/
def read_packet_into (st : CafPacketReader) (n : Nat) :
    Except (Outcome × CafPacketReader) (List Nat × CafPacketReader) :=
  match readExact st.rdr n with
  | .error e => .error (e, st)
  | .ok (data, s') =>
    .ok (data,
      { st with rdr := s', packet_idx := st.packet_idx + 1,
                audio_chunk_offs := st.audio_chunk_offs + asI64 n })

/-- `CafPacketReader::get_packet_count` (`lib.rs` lines 443-458).  The
`audio_chunk_len as usize - 4` subtraction underflows (a panic under
overflow checks) for a bounded length below 4. -/
def get_packet_count (st : CafPacketReader) : Except Outcome (Option Nat) :=
  match st.packet_table with
  | some t => .ok (some t.lengths.length)
  | none =>
    match st.audio_desc.bytes_per_packet with
    | 0 => .error .panicked
    | Nat.succ v' =>
      if st.audio_chunk_len = -1 then .ok none
      else if asUsize st.audio_chunk_len < 4 then .error .panicked
      else .ok (some ((asUsize st.audio_chunk_len - 4) / Nat.succ v'))

/-- `CafPacketReader::get_packet_idx`. -/
def get_packet_idx (st : CafPacketReader) : Nat := st.packet_idx

/-- `CafPacketReader::seek_to_packet` (`lib.rs` lines 469-488), exactly as
written: both `min_idx` and `max_idx` are computed with `::std::cmp::min`
(line 472), the stream is seeked by the computed span, and neither
`packet_idx` nor `audio_chunk_offs` is updated.  Rust slicing
`lengths[min_idx..max_idx]` panics when the upper index exceeds the
vector's length. -/
def seek_to_packet (st : CafPacketReader) (packet_idx : Nat) : Except Outcome CafPacketReader :=
  let min_idx := Nat.min st.packet_idx packet_idx
  let max_idx := Nat.min st.packet_idx packet_idx
  match (match st.audio_desc.bytes_per_packet with
         | 0 =>
           match st.packet_table with
           | none => Except.error Outcome.panicked
           | some t =>
             if min_idx ≤ max_idx ∧ max_idx ≤ t.lengths.length then
               Except.ok (((t.lengths.drop min_idx).take (max_idx - min_idx)).foldl
                 (fun a v => a + asI64 v) 0)
             else Except.error Outcome.panicked
         | Nat.succ v' => Except.ok (asI64 (max_idx - min_idx) * (Nat.succ v' : Int))) with
  | .error e => .error e
  | .ok offs =>
    if st.packet_idx < packet_idx then
      match seekCur st.rdr offs with
      | .error e => .error e
      | .ok s' => .ok { st with rdr := s' }
    else if packet_idx < st.packet_idx then
      match seekCur st.rdr (-offs) with
      | .error e => .error e
      | .ok s' => .ok { st with rdr := s' }
    else .ok st

/-- Big-endian 4-byte encoding (test-stream builder). -/
def u32be (n : Nat) : List Nat :=
  [n / 2 ^ 24 % 256, n / 2 ^ 16 % 256, n / 2 ^ 8 % 256, n % 256]

/-- Big-endian 8-byte encoding (test-stream builder). -/
def u64be (n : Nat) : List Nat :=
  [n / 2 ^ 56 % 256, n / 2 ^ 48 % 256, n / 2 ^ 40 % 256, n / 2 ^ 32 % 256,
   n / 2 ^ 24 % 256, n / 2 ^ 16 % 256, n / 2 ^ 8 % 256, n % 256]

/-- Big-endian 8-byte two's-complement encoding (test-stream builder). -/
def i64be (v : Int) : List Nat := u64be (asUsize v)

/-- A 32-byte AudioDescription chunk body with the given packet geometry. -/
def descBody (bpp fpp : Nat) : List Nat :=
  u64be 0 ++ u32be 0x6c70636d ++ u32be 0 ++ u32be bpp ++ u32be fpp ++ u32be 1 ++ u32be 8

/-- A full AudioDescription chunk (header plus body). -/
def descChunk (bpp fpp : Nat) : List Nat :=
  u32be 0x64657363 ++ i64be 32 ++ descBody bpp fpp

/-- A PacketTable chunk declaring one packet of length 4. -/
def paktChunk : List Nat :=
  u32be 0x70616b74 ++ i64be 25 ++ i64be 1 ++ i64be 1 ++ u32be 0 ++ u32be 0 ++ [4]

/-- An AudioData chunk with a zero edit count and `n` payload bytes. -/
def dataChunk (n : Nat) : List Nat :=
  u32be 0x64617461 ++ i64be (4 + (n : Int)) ++ u32be 0 ++ List.replicate n 0

/-- A MagicCookie chunk with a 2-byte body. -/
def kukiChunk : List Nat := u32be 0x6b756b69 ++ i64be 2 ++ [1, 2]

/-- Stream for the C4 counterexample: a PacketTable chunk precedes the
AudioDescription chunk although the description (bytes_per_packet = 4,
frames_per_packet = 1) makes no table mandatory. -/
def c4Stream : ByteStream := { data := paktChunk ++ descChunk 4 1 ++ dataChunk 4, pos := 0 }

/-- Stream for the C4 witness: the AudioDescription (bytes_per_packet = 0)
makes the table mandatory; the table follows the description. -/
def c4StreamB : ByteStream := { data := descChunk 0 1 ++ paktChunk ++ dataChunk 4, pos := 0 }

/-- Stream for the C5 example: chunks MagicCookie, PacketTable,
AudioDescription, AudioData. -/
def c5Stream : ByteStream :=
  { data := kukiChunk ++ paktChunk ++ descChunk 4 1 ++ dataChunk 4, pos := 0 }

/-- Stream for C9: its first chunk header carries the `-1` size sentinel. -/
def c9Stream : ByteStream :=
  { data := u32be 0x64617461 ++ i64be (-1) ++ List.replicate 4 0, pos := 0 }

/-- Driver that performs `k` successive `next_packet` calls, collecting the
returned packets. -/
def runNextPackets : Nat → CafPacketReader →
    Except (Outcome × CafPacketReader) (List (Option (List Nat)) × CafPacketReader)
  | 0, st => .ok ([], st)
  | Nat.succ k, st =>
    match next_packet st with
    | .error e => .error e
    | .ok (r, st1) =>
      match runNextPackets k st1 with
      | .error e => .error e
      | .ok (rs, st2) => .ok (r :: rs, st2)

/-- The audio description of the C7 scenario: bytes_per_packet = 4,
frames_per_packet = 1. -/
def c7Desc : AudioDescription :=
  { sample_rate := 0, format_id := .linearPcm, format_flags := 0,
    bytes_per_packet := 4, frames_per_packet := 1,
    channels_per_frame := 1, bits_per_channel := 8 }

/-- The C7 scenario reader after `i` packets have been consumed: an
audio-data chunk of declared size `4*N+4` (edit count plus `N` packets of
4 zero bytes), no packet table. -/
def c7State (N i : Nat) : CafPacketReader :=
  { rdr := { data := List.replicate (4 * N) 0, pos := 4 * i },
    audio_desc := c7Desc, packet_table := none, chunks := [], edit_count := 0,
    audio_chunk_len := 4 * (N : Int) + 4, audio_chunk_offs := 4 + 4 * (i : Int),
    packet_idx := i }

/-- A constant-packet-size reader (bytes_per_packet = 4) positioned at
packet 0, used to evaluate `seek_to_packet`. -/
def c1State : CafPacketReader :=
  { rdr := { data := List.replicate 16 0, pos := 0 },
    audio_desc := c7Desc, packet_table := none, chunks := [], edit_count := 0,
    audio_chunk_len := 20, audio_chunk_offs := 4, packet_idx := 0 }

/-- A table-driven reader (bytes_per_packet = 0, table lengths [3, 5, 2])
positioned at packet 0, used to evaluate `seek_to_packet`. -/
def c1TableState : CafPacketReader :=
  { rdr := { data := List.replicate 16 0, pos := 0 },
    audio_desc := { c7Desc with bytes_per_packet := 0 },
    packet_table := some
      { num_valid_frames := 3, num_priming_frames := 0, num_remainder_frames := 0,
        lengths := [3, 5, 2] },
    chunks := [], edit_count := 0,
    audio_chunk_len := 20, audio_chunk_offs := 4, packet_idx := 0 }

/-- C1: evaluating `seek_to_packet` at the failing inputs.  A reader at
packet 0 asked to seek to packet 2 returns with the reader completely
unchanged — no bytes are seeked (the source computes `min` for both range
bounds, so the span is always 0), the packet cursor stays 0 instead of
becoming 2, and the byte offset is not updated — in both the
constant-size (bytes_per_packet = 4, expected span 8) and the table-driven
(lengths [3, 5, 2], expected span 3 + 5 = 8) configurations.  This
contradicts the claimed span computation, cursor update and offset
update. -/
theorem seek_to_packet_bounds_collapse_eval :
    seek_to_packet c1State 2 = .ok c1State ∧
    seek_to_packet c1TableState 2 = .ok c1TableState :=
  ⟨rfl, rfl⟩

/-- C2: evaluating `read_vlq` beyond the claimed iteration cap.  A VLQ of
eleven continuation bytes followed by a terminating byte — more than the
claimed circa-10-byte cap for the 64-bit range — is decoded successfully
(12 iterations, result 1) instead of failing with a `MalformedVlq` error;
and an input whose continuation bit never clears makes the loop consume
the entire source and fail with the I/O (exhaustion) error: no
`MalformedVlq` error exists anywhere in the code. -/
theorem read_vlq_uncapped_eval :
    read_vlq (List.replicate 11 128 ++ [1]) = some (1, []) ∧
    read_vlq (List.replicate 20 128) = none :=
  ⟨rfl, rfl⟩

/-- C3: for every stream and chunk tag, `read_chunk_body` on a header
carrying the `-1` extends-to-EOF sentinel panics (the source's
`panic!("unspecified chunk size is not yet implemented")`) instead of
reading until the source is exhausted. -/
theorem read_chunk_body_eof_sentinel_panics :
    ∀ (s : ByteStream) (t : ChunkType),
      read_chunk_body s { ch_type := t, ch_size := -1 } = .error .panicked := by
  intro s t
  simp [read_chunk_body]

/-- C9: evaluating the bulk scan on a stream whose first chunk header
carries the `-1` size sentinel while the required set is still unsatisfied:
the scan panics — both when the chunk's tag is outside the capture set
(the skip path, `to_next_chunk`) and when it is inside it (the read path,
`read_chunk_body`) — rather than failing fast with a typed error. -/
theorem scan_panics_on_eof_sentinel :
    read_chunks_to_mem 10 [ChunkType.audioDescription]
      [ChunkType.audioDescription, ChunkType.packetTable] c9Stream = .error .panicked ∧
    read_chunks_to_mem 10 [ChunkType.audioDescription]
      [ChunkType.audioData] c9Stream = .error .panicked :=
  ⟨rfl, rfl⟩

/-- C8 counterexample: a truncated InfoStrings body — a declared count of 1
with no pair bytes at all — does not cause decoding to fail: it decodes
successfully to one pair of empty strings.  This refutes the claim that a
truncated pair fails with a typed MalformedField-kind error. -/
theorem info_truncated_pair_accepted :
    decode_chunk ChunkType.info [0, 0, 0, 1] = .ok (.info [([], [])]) :=
  rfl

/-- C4 counterexample: constructing a packet reader over `c4Stream` — whose
audio description has bytes_per_packet = 4 and frames_per_packet = 1, so no
packet table is required — succeeds with a stored packet table, because the
stream happens to contain a PacketTable chunk ahead of the
AudioDescription chunk and the scan captures it unconditionally.  This
refutes the claimed "otherwise it is absent" direction. -/
theorem packet_table_present_though_not_required :
    (from_chunk_reader 10 c4Stream []).map
      (fun st => (st.packet_table.isSome, st.audio_desc.bytes_per_packet,
                  st.audio_desc.frames_per_packet)) = .ok (true, 4, 1) :=
  rfl

theorem readExact_length {s : ByteStream} {n : Nat} {bs : List Nat} {s' : ByteStream}
    (h : readExact s n = .ok (bs, s')) : bs.length = n := by
  unfold readExact at h
  split at h
  · simp only [Except.ok.injEq, Prod.mk.injEq] at h
    obtain ⟨h1, _⟩ := h
    subst h1
    simp only [List.length_take, List.length_drop]
    omega
  · simp at h

/-- C10: error atomicity of the packet-reading operations.  When
`next_packet` or `read_packet_into` fails, the reader it leaves behind has
the same packet cursor and byte offset as before the call; on success the
cursor advances by exactly 1 and the offset by exactly the packet size. -/
theorem packet_read_atomicity :
    (∀ (st : CafPacketReader) (e : Outcome) (st' : CafPacketReader),
      next_packet st = .error (e, st') →
      st'.packet_idx = st.packet_idx ∧ st'.audio_chunk_offs = st.audio_chunk_offs) ∧
    (∀ (st : CafPacketReader) (n : Nat) (e : Outcome) (st' : CafPacketReader),
      read_packet_into st n = .error (e, st') →
      st'.packet_idx = st.packet_idx ∧ st'.audio_chunk_offs = st.audio_chunk_offs) ∧
    (∀ (st : CafPacketReader) (p : List Nat) (st' : CafPacketReader),
      next_packet st = .ok (some p, st') →
      st'.packet_idx = st.packet_idx + 1 ∧
      st'.audio_chunk_offs = st.audio_chunk_offs + asI64 p.length) ∧
    (∀ (st : CafPacketReader) (n : Nat) (d : List Nat) (st' : CafPacketReader),
      read_packet_into st n = .ok (d, st') →
      st'.packet_idx = st.packet_idx + 1 ∧
      st'.audio_chunk_offs = st.audio_chunk_offs + asI64 d.length) := by
  refine ⟨?_, ?_, ?_, ?_⟩
  · intro st e st' h
    unfold next_packet at h
    split at h
    · simp only [Except.error.injEq, Prod.mk.injEq] at h
      obtain ⟨_, h2⟩ := h
      subst h2
      exact ⟨rfl, rfl⟩
    · simp at h
    · split at h
      · simp only [Except.error.injEq, Prod.mk.injEq] at h
        obtain ⟨_, h2⟩ := h
        subst h2
        exact ⟨rfl, rfl⟩
      · simp at h
  · intro st n e st' h
    unfold read_packet_into at h
    split at h
    · simp only [Except.error.injEq, Prod.mk.injEq] at h
      obtain ⟨_, h2⟩ := h
      subst h2
      exact ⟨rfl, rfl⟩
    · simp at h
  · intro st p st' h
    unfold next_packet at h
    split at h
    · simp at h
    · simp at h
    · rename_i n hsize
      split at h
      · simp at h
      · rename_i arr s2 hread
        simp only [Except.ok.injEq, Prod.mk.injEq, Option.some.injEq] at h
        obtain ⟨h1, h2⟩ := h
        subst h1
        subst h2
        refine ⟨rfl, ?_⟩
        simp only
        rw [readExact_length hread]
  · intro st n d st' h
    unfold read_packet_into at h
    split at h
    · simp at h
    · rename_i arr s2 hread
      simp only [Except.ok.injEq, Prod.mk.injEq] at h
      obtain ⟨h1, h2⟩ := h
      subst h1
      subst h2
      refine ⟨rfl, ?_⟩
      simp only
      rw [readExact_length hread]

/-- C10 witness: a constant-size reader over an exhausted source: the read
fails with the I/O error and the returned reader's cursor and offset are
unchanged. -/
theorem packet_read_atomicity_witness :
    next_packet
      { rdr := { data := [], pos := 0 }, audio_desc := c7Desc, packet_table := none,
        chunks := [], edit_count := 0, audio_chunk_len := -1, audio_chunk_offs := 4,
        packet_idx := 0 } = .error (.err .io,
      { rdr := { data := [], pos := 0 }, audio_desc := c7Desc, packet_table := none,
        chunks := [], edit_count := 0, audio_chunk_len := -1, audio_chunk_offs := 4,
        packet_idx := 0 }) ∧
    (0 : Nat) = 0 ∧ (4 : Int) = 4 := by
  have h : next_packet
      { rdr := { data := [], pos := 0 }, audio_desc := c7Desc, packet_table := none,
        chunks := [], edit_count := 0, audio_chunk_len := -1, audio_chunk_offs := 4,
        packet_idx := 0 } = .error (.err .io,
      { rdr := { data := [], pos := 0 }, audio_desc := c7Desc, packet_table := none,
        chunks := [], edit_count := 0, audio_chunk_len := -1, audio_chunk_offs := 4,
        packet_idx := 0 }) := rfl
  exact ⟨h, (packet_read_atomicity.1 _ _ _ h).1, (packet_read_atomicity.1 _ _ _ h).2⟩

/-- C6: characterization of `next_packet_size` on every reader state (when
the packet table is present whenever `bytes_per_packet` is zero, which the
constructor enforces): a nonzero `bytes_per_packet` is returned directly;
otherwise the packet-table entry at the cursor is used, with `none` when
the cursor is past the table; and whenever the audio chunk length is
bounded (not `-1`) and the offset plus the computed candidate exceeds it,
`none` is returned although a size was computed. -/
theorem next_packet_size_spec (st : CafPacketReader) :
    (st.audio_desc.bytes_per_packet ≠ 0 →
      (st.audio_chunk_len = -1 ∨
        st.audio_chunk_offs + asI64 st.audio_desc.bytes_per_packet ≤ st.audio_chunk_len) →
      next_packet_size st = .ok (some st.audio_desc.bytes_per_packet)) ∧
    (st.audio_desc.bytes_per_packet ≠ 0 → st.audio_chunk_len ≠ -1 →
      st.audio_chunk_len < st.audio_chunk_offs + asI64 st.audio_desc.bytes_per_packet →
      next_packet_size st = .ok none) ∧
    (∀ t, st.audio_desc.bytes_per_packet = 0 → st.packet_table = some t →
      t.lengths.get? st.packet_idx = none → next_packet_size st = .ok none) ∧
    (∀ t c, st.audio_desc.bytes_per_packet = 0 → st.packet_table = some t →
      t.lengths.get? st.packet_idx = some c →
      (st.audio_chunk_len = -1 ∨ st.audio_chunk_offs + asI64 c ≤ st.audio_chunk_len) →
      next_packet_size st = .ok (some c)) ∧
    (∀ t c, st.audio_desc.bytes_per_packet = 0 → st.packet_table = some t →
      t.lengths.get? st.packet_idx = some c → st.audio_chunk_len ≠ -1 →
      st.audio_chunk_len < st.audio_chunk_offs + asI64 c →
      next_packet_size st = .ok none) := by
  refine ⟨?_, ?_, ?_, ?_, ?_⟩
  · intro hbpp hbound
    obtain ⟨k, hk⟩ := Nat.exists_eq_succ_of_ne_zero hbpp
    rw [hk] at hbound
    have hneg : ¬(st.audio_chunk_len ≠ -1 ∧
        st.audio_chunk_offs + asI64 (Nat.succ k) > st.audio_chunk_len) := by
      rcases hbound with hb | hb
      · intro hcon
        exact hcon.1 hb
      · intro hcon
        omega
    simp only [next_packet_size, hk, if_neg hneg]
  · intro hbpp hlen hover
    obtain ⟨k, hk⟩ := Nat.exists_eq_succ_of_ne_zero hbpp
    rw [hk] at hover
    have hpos : st.audio_chunk_len ≠ -1 ∧
        st.audio_chunk_offs + asI64 (Nat.succ k) > st.audio_chunk_len := ⟨hlen, hover⟩
    simp only [next_packet_size, hk, if_pos hpos]
  · intro t hbpp htab hget
    simp only [next_packet_size, hbpp, htab, hget]
  · intro t c hbpp htab hget hbound
    have hneg : ¬(st.audio_chunk_len ≠ -1 ∧
        st.audio_chunk_offs + asI64 c > st.audio_chunk_len) := by
      rcases hbound with hb | hb
      · intro hcon
        exact hcon.1 hb
      · intro hcon
        omega
    simp only [next_packet_size, hbpp, htab, hget, if_neg hneg]
  · intro t c hbpp htab hget hlen hover
    have hpos : st.audio_chunk_len ≠ -1 ∧
        st.audio_chunk_offs + asI64 c > st.audio_chunk_len := ⟨hlen, hover⟩
    simp only [next_packet_size, hbpp, htab, hget, if_pos hpos]

/-- C6 witness: a table-driven reader (bytes_per_packet = 0, lengths
[3, 5, 2], cursor 0, bounded chunk length 20, offset 4) gets packet size
3 from the table. -/
theorem next_packet_size_spec_witness :
    next_packet_size c1TableState = .ok (some 3) :=
  (next_packet_size_spec c1TableState).2.2.2.1
    { num_valid_frames := 3, num_priming_frames := 0, num_remainder_frames := 0,
      lengths := [3, 5, 2] } 3
    rfl rfl rfl (Or.inr (by decide))

theorem decode_chunk_get_type {t : ChunkType} {content : List Nat} {ch : CafChunk}
    (h : decode_chunk t content = .ok ch) : ch.get_type = t := by
  cases t <;> simp only [decode_chunk] at h <;> (repeat' split at h) <;>
    first
      | exact Except.noConfusion h
      | (simp only [Except.ok.injEq] at h; subst h; rfl)

theorem read_chunk_body_get_type {s : ByteStream} {hdr : CafChunkHeader} {c : CafChunk}
    {s' : ByteStream} (h : read_chunk_body s hdr = .ok (c, s')) :
    c.get_type = hdr.ch_type := by
  unfold read_chunk_body at h
  split at h
  · simp at h
  · split at h
    · simp at h
    · split at h
      · simp at h
      · rename_i c' hdec
        simp only [Except.ok.injEq, Prod.mk.injEq] at h
        obtain ⟨h1, _⟩ := h
        subst h1
        exact decode_chunk_get_type hdec

theorem scanStep_types {found : Bool} {s : ByteStream} {hdr : CafChunkHeader}
    {copt : Option CafChunk} {s2 : ByteStream}
    (h : scanStep found s hdr = .ok (copt, s2)) :
    copt.toList.map CafChunk.get_type = if found then [hdr.ch_type] else [] := by
  cases found <;> unfold scanStep at h
  · simp only [Bool.false_eq_true, if_false] at h ⊢
    split at h
    · simp at h
    · simp only [Except.ok.injEq, Prod.mk.injEq] at h
      obtain ⟨h1, _⟩ := h
      subst h1
      rfl
  · simp only [if_true] at h ⊢
    split at h
    · simp at h
    · rename_i c s2' hbody
      simp only [Except.ok.injEq, Prod.mk.injEq] at h
      obtain ⟨h1, _⟩ := h
      subst h1
      simp only [Option.toList_some, List.map_cons, List.map_nil, List.cons.injEq, and_true]
      exact read_chunk_body_get_type hbody

theorem rcm_fold_requires {fuel : Nat} :
    ∀ {req cr : List ChunkType} {s : ByteStream} {res : List CafChunk}
      {hdrs : List CafChunkHeader} {s' : ByteStream},
      read_chunks_to_mem fuel req cr s = .ok (res, hdrs, s') →
      List.foldl removeFirstOcc req (hdrs.map CafChunkHeader.ch_type) = [] := by
  induction fuel with
  | zero =>
    intro req cr s res hdrs s' h
    simp [read_chunks_to_mem] at h
  | succ n ih =>
    intro req cr s res hdrs s' h
    simp only [read_chunks_to_mem] at h
    split at h
    · simp at h
    · rename_i hdr s1 hhdr
      split at h
      · simp at h
      · rename_i copt s2 hstep
        split at h
        · rename_i hreq
          simp only [Except.ok.injEq, Prod.mk.injEq] at h
          obtain ⟨_, h2, _⟩ := h
          subst h2
          simpa using hreq
        · rename_i hreq
          split at h
          · simp at h
          · rename_i res2 hdrs2 s3 hrec
            simp only [Except.ok.injEq, Prod.mk.injEq] at h
            obtain ⟨_, h2, _⟩ := h
            subst h2
            simpa using ih hrec

theorem rcm_fold_midscan {fuel : Nat} :
    ∀ {req cr : List ChunkType} {s : ByteStream} {res : List CafChunk}
      {hdrs : List CafChunkHeader} {s' : ByteStream},
      read_chunks_to_mem fuel req cr s = .ok (res, hdrs, s') → req ≠ [] →
      ∀ k, k < hdrs.length →
        List.foldl removeFirstOcc req ((hdrs.take k).map CafChunkHeader.ch_type) ≠ [] := by
  induction fuel with
  | zero =>
    intro req cr s res hdrs s' h
    simp [read_chunks_to_mem] at h
  | succ n ih =>
    intro req cr s res hdrs s' h hreq0 k hk
    simp only [read_chunks_to_mem] at h
    split at h
    · simp at h
    · rename_i hdr s1 hhdr
      split at h
      · simp at h
      · rename_i copt s2 hstep
        split at h
        · rename_i hreq
          simp only [Except.ok.injEq, Prod.mk.injEq] at h
          obtain ⟨_, h2, _⟩ := h
          subst h2
          simp only [List.length_cons, List.length_nil] at hk
          interval_cases k
          simpa using hreq0
        · rename_i hreq
          split at h
          · simp at h
          · rename_i res2 hdrs2 s3 hrec
            simp only [Except.ok.injEq, Prod.mk.injEq] at h
            obtain ⟨_, h2, _⟩ := h
            subst h2
            cases k with
            | zero => simpa using hreq0
            | succ k' =>
              simp only [List.take_succ_cons, List.map_cons, List.foldl_cons]
              refine ih hrec hreq k' ?_
              simp only [List.length_cons] at hk
              omega

theorem rcm_captured_types {fuel : Nat} :
    ∀ {req cr : List ChunkType} {s : ByteStream} {res : List CafChunk}
      {hdrs : List CafChunkHeader} {s' : ByteStream},
      read_chunks_to_mem fuel req cr s = .ok (res, hdrs, s') →
      res.map CafChunk.get_type =
        (hdrs.filter (fun hd => cr.any (fun x => decide (x = hd.ch_type)))).map
          CafChunkHeader.ch_type := by
  induction fuel with
  | zero =>
    intro req cr s res hdrs s' h
    simp [read_chunks_to_mem] at h
  | succ n ih =>
    intro req cr s res hdrs s' h
    simp only [read_chunks_to_mem] at h
    split at h
    · simp at h
    · rename_i hdr s1 hhdr
      split at h
      · simp at h
      · rename_i copt s2 hstep
        split at h
        · rename_i hreq
          simp only [Except.ok.injEq, Prod.mk.injEq] at h
          obtain ⟨h1, h2, _⟩ := h
          subst h1
          subst h2
          rw [List.filter_cons]
          rw [scanStep_types hstep]
          split <;> simp
        · rename_i hreq
          split at h
          · simp at h
          · rename_i res2 hdrs2 s3 hrec
            simp only [Except.ok.injEq, Prod.mk.injEq] at h
            obtain ⟨h1, h2, _⟩ := h
            subst h1
            subst h2
            rw [List.filter_cons, List.map_append]
            rw [scanStep_types hstep, ih hrec]
            split <;> simp

/-- C5: the bulk scan `read_chunks_to_mem`.  On every successful scan:
(1) folding the removal of one occurrence per seen header tag over the
initial required multiset leaves it empty at the end of the header log —
the scan runs until the required multiset is exhausted, each matching
header removing exactly one occurrence (revisit-once);
(2) at every proper prefix of the header log the required multiset is not
yet exhausted (the scan stops at the first point of exhaustion);
(3) the decoded results are exactly (and in order) the scanned headers
whose tag lies in the capture list, every other chunk being skipped
undecoded, while the log keeps every header seen;
and in particular scanning [MagicCookie, PacketTable, AudioDescription,
AudioData] with required = {AudioDescription} and capture =
{AudioDescription, PacketTable} captures exactly the PacketTable and
AudioDescription chunks, logs exactly those three headers, and leaves the
cursor at byte 95 — the start of the AudioData header, which is never
read. -/
theorem read_chunks_to_mem_spec :
    (∀ (fuel : Nat) (req cr : List ChunkType) (s : ByteStream) (res : List CafChunk)
       (hdrs : List CafChunkHeader) (s' : ByteStream),
       read_chunks_to_mem fuel req cr s = .ok (res, hdrs, s') →
       List.foldl removeFirstOcc req (hdrs.map CafChunkHeader.ch_type) = []) ∧
    (∀ (fuel : Nat) (req cr : List ChunkType) (s : ByteStream) (res : List CafChunk)
       (hdrs : List CafChunkHeader) (s' : ByteStream),
       read_chunks_to_mem fuel req cr s = .ok (res, hdrs, s') → req ≠ [] →
       ∀ k, k < hdrs.length →
         List.foldl removeFirstOcc req ((hdrs.take k).map CafChunkHeader.ch_type) ≠ []) ∧
    (∀ (fuel : Nat) (req cr : List ChunkType) (s : ByteStream) (res : List CafChunk)
       (hdrs : List CafChunkHeader) (s' : ByteStream),
       read_chunks_to_mem fuel req cr s = .ok (res, hdrs, s') →
       res.map CafChunk.get_type =
         (hdrs.filter (fun hd => cr.any (fun x => decide (x = hd.ch_type)))).map
           CafChunkHeader.ch_type) ∧
    read_chunks_to_mem 10 [ChunkType.audioDescription]
        [ChunkType.audioDescription, ChunkType.packetTable] c5Stream =
      .ok ([CafChunk.packetTable
              { num_valid_frames := 1, num_priming_frames := 0,
                num_remainder_frames := 0, lengths := [4] },
            CafChunk.desc
              { sample_rate := 0, format_id := .linearPcm, format_flags := 0,
                bytes_per_packet := 4, frames_per_packet := 1,
                channels_per_frame := 1, bits_per_channel := 8 }],
           [{ ch_type := ChunkType.magicCookie, ch_size := 2 },
            { ch_type := ChunkType.packetTable, ch_size := 25 },
            { ch_type := ChunkType.audioDescription, ch_size := 32 }],
           { data := c5Stream.data, pos := 95 }) :=
  ⟨fun _ _ _ _ _ _ _ h => rcm_fold_requires h,
   fun _ _ _ _ _ _ _ h => rcm_fold_midscan h,
   fun _ _ _ _ _ _ _ h => rcm_captured_types h,
   rfl⟩

/-- C5 witness: the general exhaustion property applied to the concrete
four-chunk scan. -/
theorem read_chunks_to_mem_spec_witness :
    List.foldl removeFirstOcc [ChunkType.audioDescription]
      (([{ ch_type := ChunkType.magicCookie, ch_size := 2 },
         { ch_type := ChunkType.packetTable, ch_size := 25 },
         { ch_type := ChunkType.audioDescription, ch_size := 32 }] :
           List CafChunkHeader).map CafChunkHeader.ch_type) = [] :=
  read_chunks_to_mem_spec.1 10 [ChunkType.audioDescription]
    [ChunkType.audioDescription, ChunkType.packetTable] c5Stream _ _ _
    read_chunks_to_mem_spec.2.2.2

theorem decodeInfoEntries_fromUtf8 {k : Nat} :
    ∀ {rest : List Nat} {e : Outcome}, decodeInfoEntries k rest = .error e →
      e = .err .fromUtf8 := by
  induction k with
  | zero =>
    intro rest e h
    exact Except.noConfusion h
  | succ n ih =>
    intro rest e h
    simp only [decodeInfoEntries] at h
    split at h
    · split at h
      · split at h
        · rename_i hrec
          cases h
          exact ih hrec
        · exact Except.noConfusion h
      · cases h
        rfl
    · cases h
      rfl

/-- C8 (amended): decoding an InfoStrings body whose pair bytes are not
valid UTF-8 fails with the typed `FromUtf8` error, and every failure of
the InfoStrings decoder reaches the caller as a typed `CafError` (an I/O
error for a truncated count field or the UTF-8 error) — the Info arm never
panics.  (A truncated pair, by contrast, is silently accepted: see the
counterexample.) -/
theorem info_decode_amended :
    decode_chunk ChunkType.info [0, 0, 0, 1, 255, 0, 65, 0] = .error (.err .fromUtf8) ∧
    (∀ (content : List Nat) (e : Outcome),
      decode_chunk ChunkType.info content = .error e →
      e = .err .io ∨ e = .err .fromUtf8) := by
  constructor
  · rfl
  · intro content e h
    simp only [decode_chunk] at h
    split at h
    · cases h
      left
      rfl
    · split at h
      · rename_i hrec
        cases h
        right
        exact decodeInfoEntries_fromUtf8 hrec
      · exact Except.noConfusion h

/-- C8 witness: the typed-propagation property applied at a body too short
to hold its count field, which yields the typed I/O error. -/
theorem info_decode_amended_witness :
    decode_chunk ChunkType.info [] = .error (.err .io) ∧
    ((.err .io : Outcome) = .err .io ∨ (.err .io : Outcome) = .err .fromUtf8) :=
  ⟨rfl, info_decode_amended.2 [] (.err .io) rfl⟩

theorem resolve_packet_table_some {fuel : Nat} {ad : AudioDescription} {pti : Option Nat}
    {chunks1 : List CafChunk} {rh : List CafChunkHeader} {cr : List ChunkType}
    {s1 : ByteStream} {pt : Option PacketTable} {c2 : List CafChunk}
    {rh2 : List CafChunkHeader} {s2 : ByteStream}
    (h : resolve_packet_table fuel ad pti chunks1 rh cr s1 = .ok (pt, c2, rh2, s2))
    (hreq : ad.bytes_per_packet = 0 ∨ ad.frames_per_packet = 0) :
    pt.isSome := by
  unfold resolve_packet_table at h
  split at h
  · split at h
    · exact Except.noConfusion h
    · simp only [Except.ok.injEq, Prod.mk.injEq] at h
      obtain ⟨h1, _⟩ := h
      subst h1
      rfl
  · rw [if_pos hreq] at h
    split at h
    · exact Except.noConfusion h
    · split at h
      · exact Except.noConfusion h
      · split at h
        · exact Except.noConfusion h
        · simp only [Except.ok.injEq, Prod.mk.injEq] at h
          obtain ⟨h1, _⟩ := h
          subst h1
          rfl

/-- C4 (amended): the stored packet table is present whenever the audio
description's bytes_per_packet or frames_per_packet is zero (the
constructor enforces this, scanning again for the table if needed); when
neither is zero the table may nevertheless be present — it is stored
whenever a PacketTable chunk was encountered during the construction scan
(see the counterexample) — and the presence is fixed at construction:
no packet-reading or seeking operation ever changes the stored table. -/
theorem packet_table_presence_amended :
    (∀ (fuel : Nat) (s : ByteStream) (fb : List ChunkType) (st : CafPacketReader),
      from_chunk_reader fuel s fb = .ok st →
      (st.audio_desc.bytes_per_packet = 0 ∨ st.audio_desc.frames_per_packet = 0) →
      st.packet_table.isSome) ∧
    (∀ (st : CafPacketReader) (r : Option (List Nat)) (st2 : CafPacketReader),
      next_packet st = .ok (r, st2) → st2.packet_table = st.packet_table) ∧
    (∀ (st : CafPacketReader) (e : Outcome) (st2 : CafPacketReader),
      next_packet st = .error (e, st2) → st2.packet_table = st.packet_table) ∧
    (∀ (st : CafPacketReader) (n : Nat) (d : List Nat) (st2 : CafPacketReader),
      read_packet_into st n = .ok (d, st2) → st2.packet_table = st.packet_table) ∧
    (∀ (st : CafPacketReader) (n : Nat) (e : Outcome) (st2 : CafPacketReader),
      read_packet_into st n = .error (e, st2) → st2.packet_table = st.packet_table) ∧
    (∀ (st : CafPacketReader) (n : Nat) (st2 : CafPacketReader),
      seek_to_packet st n = .ok st2 → st2.packet_table = st.packet_table) := by
  refine ⟨?_, ?_, ?_, ?_, ?_, ?_⟩
  · intro fuel s fb st h hreq
    simp only [from_chunk_reader] at h
    split at h
    · exact Except.noConfusion h
    · split at h
      · exact Except.noConfusion h
      · split at h
        · exact Except.noConfusion h
        · split at h
          · exact Except.noConfusion h
          · rename_i pt cF rF sF hres
            split at h
            · exact Except.noConfusion h
            · split at h
              · exact Except.noConfusion h
              · simp only [Except.ok.injEq] at h
                subst h
                exact resolve_packet_table_some hres hreq
  · intro st r st2 h
    unfold next_packet at h
    split at h
    · exact Except.noConfusion h
    · simp only [Except.ok.injEq, Prod.mk.injEq] at h
      obtain ⟨_, h2⟩ := h
      subst h2
      rfl
    · split at h
      · exact Except.noConfusion h
      · simp only [Except.ok.injEq, Prod.mk.injEq] at h
        obtain ⟨_, h2⟩ := h
        subst h2
        rfl
  · intro st e st2 h
    unfold next_packet at h
    split at h
    · simp only [Except.error.injEq, Prod.mk.injEq] at h
      obtain ⟨_, h2⟩ := h
      subst h2
      rfl
    · exact Except.noConfusion h
    · split at h
      · simp only [Except.error.injEq, Prod.mk.injEq] at h
        obtain ⟨_, h2⟩ := h
        subst h2
        rfl
      · exact Except.noConfusion h
  · intro st n d st2 h
    unfold read_packet_into at h
    split at h
    · exact Except.noConfusion h
    · simp only [Except.ok.injEq, Prod.mk.injEq] at h
      obtain ⟨_, h2⟩ := h
      subst h2
      rfl
  · intro st n e st2 h
    unfold read_packet_into at h
    split at h
    · simp only [Except.error.injEq, Prod.mk.injEq] at h
      obtain ⟨_, h2⟩ := h
      subst h2
      rfl
    · exact Except.noConfusion h
  · intro st n st2 h
    simp only [seek_to_packet] at h
    split at h
    · exact Except.noConfusion h
    · split at h
      · split at h
        · exact Except.noConfusion h
        · simp only [Except.ok.injEq] at h
          subst h
          rfl
      · split at h
        · split at h
          · exact Except.noConfusion h
          · simp only [Except.ok.injEq] at h
            subst h
            rfl
        · simp only [Except.ok.injEq] at h
          subst h
          rfl

/-- C4 witness: over `c4StreamB` the audio description has
bytes_per_packet = 0, so the construction invariant applies and the built
reader indeed stores a packet table. -/
theorem packet_table_presence_amended_witness :
    ∃ st, from_chunk_reader 12 c4StreamB [] = Except.ok st ∧ st.packet_table.isSome := by
  have h0 : (from_chunk_reader 12 c4StreamB []).map
      (fun st => st.audio_desc.bytes_per_packet) = .ok 0 := rfl
  cases hE : from_chunk_reader 12 c4StreamB [] with
  | error e =>
    rw [hE] at h0
    exact Except.noConfusion h0
  | ok st =>
    rw [hE] at h0
    simp only [Except.map, Except.ok.injEq] at h0
    exact ⟨st, rfl, packet_table_presence_amended.1 12 c4StreamB [] st hE (Or.inl h0)⟩

theorem c7_next_packet_step {N i : Nat} (hiN : i < N) :
    next_packet (c7State N i) = .ok (some (List.replicate 4 0), c7State N (i + 1)) := by
  have h4 : asI64 4 = 4 := by decide
  have hsize : next_packet_size (c7State N i) = .ok (some 4) :=
    (next_packet_size_spec (c7State N i)).1 (by simp [c7State, c7Desc])
      (Or.inr (by simp only [c7State, c7Desc, h4]; omega))
  have hcond : (c7State N i).rdr.pos + 4 ≤ (c7State N i).rdr.data.length := by
    simp only [c7State, List.length_replicate]
    omega
  have hread : readExact (c7State N i).rdr 4 =
      .ok (List.replicate 4 0, { data := List.replicate (4 * N) 0, pos := 4 * i + 4 }) := by
    unfold readExact
    rw [if_pos hcond]
    simp only [c7State]
    rw [List.drop_replicate, List.take_replicate]
    have hmin : min 4 (4 * N - 4 * i) = 4 := by omega
    rw [hmin]
  simp only [next_packet, hsize, hread]
  simp only [Except.ok.injEq, Prod.mk.injEq, Option.some.injEq, c7State,
    CafPacketReader.mk.injEq, ByteStream.mk.injEq, h4]
  exact ⟨trivial, ⟨trivial, by omega⟩, trivial, trivial, trivial, trivial, trivial,
    by push_cast; ring, trivial⟩

theorem c7_runNextPackets {k : Nat} : ∀ {N i : Nat}, i + k = N →
    runNextPackets k (c7State N i) =
      .ok (List.replicate k (some (List.replicate 4 0)), c7State N N) := by
  induction k with
  | zero =>
    intro N i hik
    have hiN : i = N := by omega
    subst hiN
    rfl
  | succ n ih =>
    intro N i hik
    have hiN : i < N := by omega
    simp only [runNextPackets, c7_next_packet_step hiN,
      ih (show (i + 1) + n = N by omega)]
    rfl

theorem c7_last_none {N : Nat} : next_packet (c7State N N) = .ok (none, c7State N N) := by
  have h4 : asI64 4 = 4 := by decide
  have hsize : next_packet_size (c7State N N) = .ok none :=
    (next_packet_size_spec (c7State N N)).2.1 (by simp [c7State, c7Desc])
      (by simp only [c7State]; omega)
      (by simp only [c7State, c7Desc, h4]; omega)
  simp only [next_packet, hsize]

theorem c7_count {N : Nat} (hb : 4 * N + 4 < 2 ^ 63) :
    get_packet_count (c7State N 0) = .ok (some N) := by
  have hus : asUsize (4 * (N : Int) + 4) = 4 * N + 4 := by
    simp only [asUsize]
    omega
  have hne : (4 * (N : Int) + 4) ≠ -1 := by omega
  show (if (4 * (N : Int) + 4) = -1 then Except.ok none
        else if asUsize (4 * (N : Int) + 4) < 4 then Except.error Outcome.panicked
        else Except.ok (some ((asUsize (4 * (N : Int) + 4) - 4) / Nat.succ 3))) =
      .ok (some N)
  rw [if_neg hne, hus, if_neg (by omega)]
  have hdiv : (4 * N + 4 - 4) / Nat.succ 3 = N := by
    show (4 * N + 4 - 4) / 4 = N
    omega
  rw [hdiv]

/-- C7: `get_packet_count`.  On every reader state: a present table gives
its length; with no table, a nonzero bytes_per_packet and the unbounded
`-1` length give "unknown"; with no table, a nonzero bytes_per_packet and
a bounded length (of at least 4) give `(boundedLength - 4) /
bytes_per_packet`.  Concretely, for AudioDescription{bytes_per_packet = 4,
frames_per_packet = 1}, an audio-data chunk of declared size `4*N+4` and
no packet table: the packet count is `N`, `N` sequential `next_packet`
calls each return a 4-byte packet, and the `(N+1)`-th returns none. -/
theorem get_packet_count_spec :
    (∀ (st : CafPacketReader) (t : PacketTable), st.packet_table = some t →
      get_packet_count st = .ok (some t.lengths.length)) ∧
    (∀ st : CafPacketReader, st.packet_table = none →
      st.audio_desc.bytes_per_packet ≠ 0 → st.audio_chunk_len = -1 →
      get_packet_count st = .ok none) ∧
    (∀ st : CafPacketReader, st.packet_table = none →
      st.audio_desc.bytes_per_packet ≠ 0 → st.audio_chunk_len ≠ -1 →
      4 ≤ asUsize st.audio_chunk_len →
      get_packet_count st =
        .ok (some ((asUsize st.audio_chunk_len - 4) / st.audio_desc.bytes_per_packet))) ∧
    (∀ N : Nat, 4 * N + 4 < 2 ^ 63 →
      get_packet_count (c7State N 0) = .ok (some N) ∧
      runNextPackets N (c7State N 0) =
        .ok (List.replicate N (some (List.replicate 4 0)), c7State N N) ∧
      next_packet (c7State N N) = .ok (none, c7State N N)) := by
  refine ⟨?_, ?_, ?_, ?_⟩
  · intro st t htab
    simp only [get_packet_count, htab]
  · intro st htab hbpp hlen
    obtain ⟨k, hk⟩ := Nat.exists_eq_succ_of_ne_zero hbpp
    simp only [get_packet_count, htab, hk]
    rw [if_pos hlen]
  · intro st htab hbpp hlen hge
    obtain ⟨k, hk⟩ := Nat.exists_eq_succ_of_ne_zero hbpp
    simp only [get_packet_count, htab, hk]
    rw [if_neg hlen, if_neg (by omega)]
  · intro N hb
    exact ⟨c7_count hb, c7_runNextPackets (Nat.zero_add N), c7_last_none⟩

/-- C7 witness: the concrete scenario at N = 2. -/
theorem get_packet_count_spec_witness :
    get_packet_count (c7State 2 0) = .ok (some 2) ∧
    runNextPackets 2 (c7State 2 0) =
      .ok (List.replicate 2 (some (List.replicate 4 0)), c7State 2 2) ∧
    next_packet (c7State 2 2) = .ok (none, c7State 2 2) :=
  get_packet_count_spec.2.2.2 2 (by omega)

end Caf
